import Mathlib

/-!
Verification of the poo-tee-weet backend worker (Cloudflare Worker with two
Durable Objects: `DocumentDO` for canonical document storage and `UserIndexDO`
for the per-user document index) against its design document.

The TypeScript source is shallowly embedded:
* JS strings are `List Char`; opaque string fields (ids, titles, content) that
  the backend never inspects are Lean `String`.
* ISO-8601 timestamps are modelled by their epoch value (`Nat`), since the
  code only ever compares them through `new Date(x).getTime()`.
* The dynamically typed values that reach `normalizeTagsInput` /
  `sanitizeTagValue` (`unknown` in the source) are modelled by `JVal`.
* Durable Object storage slots are explicit `Option` values threaded through
  the operations; each operation returns its HTTP-level result together with
  the state it leaves behind and the side effects (index pushes, WebSocket
  sends) it performs.
-/

namespace PTW

/-- A JSON-ish runtime value, as far as the tag-handling code inspects one:
`typeof value !== 'string'` and `Array.isArray(value)` are the only dynamic
type tests performed. -/
inductive JVal where
  | vstr (s : List Char)
  | vnum (n : Int)
  | vbool (b : Bool)
  | vnull
  | varr (items : List JVal)

/-- `Array.isArray(value)`. -/
def JVal.isArray : JVal → Bool
  | .varr _ => true
  | _ => false

/-- The character class of the JS regex `\s` (and of `String.prototype.trim`):
ASCII whitespace, NBSP, BOM and the Unicode space/line separators. -/
def isJsWs (c : Char) : Bool :=
  c = ' ' || ('\x09' ≤ c && c ≤ '\x0d') || c = '\u00a0' || c = '\u1680' ||
  ('\u2000' ≤ c && c ≤ '\u200a') || c = '\u2028' || c = '\u2029' ||
  c = '\u202f' || c = '\u205f' || c = '\u3000' || c = '\ufeff'

/-- `value.replace(/\s+/g, ' ')`: every maximal run of whitespace becomes a
single `' '`. -/
def collapseWs : List Char → List Char
  | [] => []
  | [c] => if isJsWs c then [' '] else [c]
  | a :: b :: rest =>
    if isJsWs a then
      if isJsWs b then collapseWs (b :: rest)
      else ' ' :: collapseWs (b :: rest)
    else a :: collapseWs (b :: rest)

/-- `s.trim()`: drop trailing whitespace, then leading whitespace. -/
def trimWs (l : List Char) : List Char :=
  List.dropWhile isJsWs ((List.dropWhile isJsWs l.reverse).reverse)

/-- `MAX_TAGS_PER_DOCUMENT` from the worker source. -/
def MAX_TAGS_PER_DOCUMENT : Nat := 20

/-- `MAX_TAG_LENGTH` from the worker source. -/
def MAX_TAG_LENGTH : Nat := 48

/-- `sanitizeTagValue`: non-strings are rejected; whitespace runs are
collapsed, the result is trimmed, empty results are rejected, and the
survivor is truncated to `MAX_TAG_LENGTH` characters. -/
def sanitizeTagValue : JVal → Option (List Char)
  | .vstr s =>
    let trimmed := trimWs (collapseWs s)
    if trimmed = [] then none else some (trimmed.take MAX_TAG_LENGTH)
  | _ => none

/-- The lowercase dedup key (`sanitized.toLowerCase()`), modelling JS
`toLowerCase` by per-character `Char.toLower`. -/
def lowerKey (s : List Char) : List Char := s.map Char.toLower

/-- The loop body of `normalizeTagsInput`: `seen` is the set of lowercase
keys already emitted and `len` the number of tags pushed so far; pushing the
tag that reaches `MAX_TAGS_PER_DOCUMENT` breaks out of the loop. -/
def normLoop : List JVal → List (List Char) → Nat → List (List Char)
  | [], _, _ => []
  | item :: rest, seen, len =>
    match sanitizeTagValue item with
    | none => normLoop rest seen len
    | some s =>
      if lowerKey s ∈ seen then normLoop rest seen len
      else if MAX_TAGS_PER_DOCUMENT ≤ len + 1 then [s]
      else s :: normLoop rest (lowerKey s :: seen) (len + 1)

/-- `normalizeTagsInput`: `null` for non-arrays, otherwise the sanitized,
case-insensitively deduplicated, capped tag list. -/
def normalizeTagsInput : JVal → Option (List (List Char))
  | .varr items => some (normLoop items [] 0)
  | _ => none

/-- `ensureDocumentTags`: `normalizeTagsInput(value) ?? []`. -/
def ensureDocumentTags (v : JVal) : List (List Char) :=
  (normalizeTagsInput v).getD []

/-- The canonical `DocumentRecord` owned by a `DocumentDO`.  Timestamps are
epoch values, tags are JS strings (`List Char`), the remaining string fields
are opaque. -/
structure DocumentRecord where
  docId : String
  ownerId : String
  title : String
  content : String
  tags : List (List Char)
  createdAt : Nat
  updatedAt : Nat
  version : Nat
deriving DecidableEq

/-- The `DocumentMetadata` projection kept by a `UserIndexDO`. -/
structure DocumentMetadata where
  docId : String
  title : String
  tags : List (List Char)
  updatedAt : Nat
  createdAt : Nat
  version : Nat
deriving DecidableEq

/-- The JSON body of an HTTP document write.  `none` in `title` / `content` /
`ownerId` models a field that is absent or `null` (either makes the source's
`??` fall back); `initFlag` is the truthiness of the body's initialize flag;
`tags` keeps its dynamic type because `normalizeTagsInput` inspects it. -/
structure WriteBody where
  title : Option String
  content : Option String
  tags : JVal
  initFlag : Bool
  ownerId : Option String

/-- The response of `DocumentDO.writeDocument`: 201 with the fresh record,
200 with the merged record, 404 (`Document does not exist`), or 403
(`Forbidden`, both the create-time and the update-time check). -/
inductive HttpWriteResult where
  | created (record : DocumentRecord)
  | ok (record : DocumentRecord)
  | notFound
  | forbidden
deriving DecidableEq

/-- What a `writeDocument` call leaves behind: the HTTP result, the
`'document'` storage slot, the in-memory cache (`this.document`), the dirty
flag, and the index pushes issued by the Document Actor during the call. -/
structure HttpWriteOutcome where
  result : HttpWriteResult
  storage : Option DocumentRecord
  memory : Option DocumentRecord
  dirty : Bool
  indexPushes : List DocumentRecord
deriving DecidableEq

/-- `ensureDocumentLoaded`: the cached record if present; on a cold load the
stored record is returned with its tags defensively re-normalized
(`tags: ensureDocumentTags(stored.tags)`) and cached.  The re-normalization
is not always the identity: a stored tag that ends in whitespace (which the
48-character truncation can produce) is changed by it. -/
def ensureDocumentLoaded (storage memory : Option DocumentRecord) : Option DocumentRecord :=
  match memory with
  | some d => some d
  | none =>
    match storage with
    | none => none
    | some stored =>
      some { stored with tags := ensureDocumentTags (.varr (stored.tags.map .vstr)) }

/-- `DocumentDO.writeDocument`. -/
def writeDocument (storage memory : Option DocumentRecord) (dirty : Bool)
    (userId docId : String) (body : WriteBody) (now : Nat) : HttpWriteOutcome :=
  match ensureDocumentLoaded storage memory with
  | none =>
    if !body.initFlag then
      { result := .notFound, storage := storage, memory := memory, dirty := dirty,
        indexPushes := [] }
    else
      let ownerId := body.ownerId.getD userId
      if ownerId ≠ userId then
        { result := .forbidden, storage := storage, memory := memory, dirty := dirty,
          indexPushes := [] }
      else
        let record : DocumentRecord :=
          { docId := docId, ownerId := ownerId,
            title := body.title.getD "", content := body.content.getD "",
            tags := ensureDocumentTags body.tags,
            createdAt := now, updatedAt := now, version := 1 }
        { result := .created record, storage := some record, memory := some record,
          dirty := false, indexPushes := [] }
  | some existing =>
    if existing.ownerId ≠ userId then
      { result := .forbidden, storage := storage, memory := memory, dirty := dirty,
        indexPushes := [] }
    else
      let incomingTags := normalizeTagsInput body.tags
      let updated : DocumentRecord :=
        { existing with
          title := body.title.getD existing.title,
          content := body.content.getD existing.content,
          tags := incomingTags.getD existing.tags,
          updatedAt := now, version := existing.version + 1 }
      { result := .ok updated, storage := some updated, memory := some updated,
        dirty := false, indexPushes := [] }

/-- The response of `DocumentDO.readDocument`. -/
inductive ReadResult where
  | ok (record : DocumentRecord)
  | notFound
  | forbidden
deriving DecidableEq

/-- `DocumentDO.readDocument`; the pair also exposes the `'document'` slot
after the call (the handler never writes it). -/
def readDocument (storage memory : Option DocumentRecord) (userId : String) :
    ReadResult × Option DocumentRecord :=
  match ensureDocumentLoaded storage memory with
  | none => (.notFound, storage)
  | some record =>
    if record.ownerId ≠ userId then (.forbidden, storage) else (.ok record, storage)

/-- A server-to-client realtime message, as far as the claims inspect it. -/
inductive ServerMsg where
  | snapshot (record : DocumentRecord)
  | ack (id : Option Int) (record : DocumentRecord)
  | remoteUpdate (record : DocumentRecord)
  | errorMsg
  | pong
deriving DecidableEq

/-- One attempted `socket.send(...)`; `delivered := false` models a send
that threw. -/
structure Send where
  target : Nat
  msg : ServerMsg
  delivered : Bool
deriving DecidableEq

/-- The response of `DocumentDO.handleRealtimeSync`. -/
inductive SyncResult where
  | accepted
  | notFound
  | forbidden
deriving DecidableEq

structure SyncOutcome where
  result : SyncResult
  storage : Option DocumentRecord
  connections : List (Nat × String)
  msgs : List Send
deriving DecidableEq

/-- `DocumentDO.handleRealtimeSync`: load-or-404, owner check, then accept
the socket, register the session and send the `snapshot`.  Sockets are
numbered; the connection map is a list in insertion order. -/
def handleRealtimeSync (storage memory : Option DocumentRecord)
    (connections : List (Nat × String)) (userId : String) (socket : Nat) : SyncOutcome :=
  match ensureDocumentLoaded storage memory with
  | none =>
    { result := .notFound, storage := storage, connections := connections, msgs := [] }
  | some record =>
    if record.ownerId ≠ userId then
      { result := .forbidden, storage := storage, connections := connections, msgs := [] }
    else
      { result := .accepted, storage := storage,
        connections := connections ++ [(socket, userId)],
        msgs := [{ target := socket, msg := .snapshot record, delivered := true }] }

/-- What one (non-coalesced) `persistNow` call does.  `threw := true` means
the promise rejected: `persistNow` has no `catch`, so a failing `syncIndex`
fetch propagates to the caller, after the storage write and with the
`this.dirty = false` line skipped. -/
structure PersistOutcome where
  storage : Option DocumentRecord
  dirty : Bool
  indexPushes : List DocumentRecord
  threw : Bool
deriving DecidableEq

/-- `DocumentDO.persistNow` in the single-threaded case (no persistence
already in flight).  `syncOk` is whether the `syncIndex` fetch to the owning
`UserIndexDO` succeeds. -/
def persistNow (memory : Option DocumentRecord) (dirty : Bool) (force : Bool)
    (storage : Option DocumentRecord) (syncOk : Bool) : PersistOutcome :=
  match memory with
  | none => { storage := storage, dirty := dirty, indexPushes := [], threw := false }
  | some d =>
    if !force && !dirty then
      { storage := storage, dirty := dirty, indexPushes := [], threw := false }
    else
      { storage := some d,
        dirty := if syncOk then false else dirty,
        indexPushes := [d],
        threw := !syncOk }

/-- A client `update` message: `id` keeps its dynamic type (the ack echoes it
only when `typeof payload.id === 'number'`), `title` / `content` as in
`WriteBody`, `tags` dynamic. -/
structure RtPayload where
  id : JVal
  title : Option String
  content : Option String
  tags : JVal

/-- `typeof payload.id === 'number' ? payload.id : undefined`. -/
def ackId : JVal → Option Int
  | .vnum n => some n
  | _ => none

/-- `DocumentDO.broadcastToOthers`: every connected socket except the origin
gets the message; a throwing `send` is caught and logged, so the loop always
reaches the remaining peers. -/
def broadcastToOthers (connections : List (Nat × String)) (origin : Nat)
    (record : DocumentRecord) (sendOk : Nat → Bool) : List Send :=
  match connections with
  | [] => []
  | (s, _) :: rest =>
    if s = origin then broadcastToOthers rest origin record sendOk
    else
      { target := s, msg := .remoteUpdate record, delivered := sendOk s } ::
        broadcastToOthers rest origin record sendOk

/-- Everything a `handleRealtimeUpdate` call leaves behind. -/
structure RtOutcome where
  storage : Option DocumentRecord
  memory : Option DocumentRecord
  dirty : Bool
  indexPushes : List DocumentRecord
  msgs : List Send
  closeCode : Option Nat
  threw : Bool

/-- `DocumentDO.handleRealtimeUpdate`: no record yields a non-fatal `error`
message; an ownership violation closes the socket with code 4403; otherwise
the merge (identical to the HTTP write merge) is applied to the in-memory
record, the dirty flag is set, `persistNow` runs, and only then the `ack`
goes to the sender followed by the `remote-update` fan-out.  A `persistNow`
rejection (`syncOk = false`) escapes `handleRealtimeUpdate` before any send;
a throwing ack send (`sendOk sender = false`) escapes before the fan-out,
since only the fan-out sends sit inside a try/catch. -/
def handleRealtimeUpdate (storage memory : Option DocumentRecord) (dirty : Bool)
    (connections : List (Nat × String)) (sender : Nat) (senderUserId : String)
    (payload : RtPayload) (now : Nat) (syncOk : Bool) (sendOk : Nat → Bool) : RtOutcome :=
  match ensureDocumentLoaded storage memory with
  | none =>
    { storage := storage, memory := memory, dirty := dirty, indexPushes := [],
      msgs := [{ target := sender, msg := .errorMsg, delivered := true }],
      closeCode := none, threw := false }
  | some record =>
    if record.ownerId ≠ senderUserId then
      { storage := storage, memory := memory, dirty := dirty, indexPushes := [],
        msgs := [], closeCode := some 4403, threw := false }
    else
      let nextRecord : DocumentRecord :=
        { record with
          title := payload.title.getD record.title,
          content := payload.content.getD record.content,
          tags := (normalizeTagsInput payload.tags).getD record.tags,
          updatedAt := now, version := record.version + 1 }
      let p := persistNow (some nextRecord) true false storage syncOk
      if p.threw then
        { storage := p.storage, memory := some nextRecord, dirty := p.dirty,
          indexPushes := p.indexPushes, msgs := [], closeCode := none, threw := true }
      else
        { storage := p.storage, memory := some nextRecord, dirty := p.dirty,
          indexPushes := p.indexPushes,
          msgs :=
            { target := sender, msg := .ack (ackId payload.id) nextRecord,
              delivered := sendOk sender } ::
              (if sendOk sender then broadcastToOthers connections sender nextRecord sendOk
               else []),
          closeCode := none, threw := !sendOk sender }

/-! ### Sequences of writes to one document (for the version counter) -/

/-- One write submitted to a `DocumentDO`: an HTTP `writeDocument` call or a
realtime `update` message. -/
inductive WriteOp where
  | http (userId docId : String) (body : WriteBody) (now : Nat)
  | rt (userId : String) (payload : RtPayload) (now : Nat)

/-- The document record (memory and storage agree between turns) after one
write.  Rejected writes leave the record untouched. -/
def applyWrite (st : Option DocumentRecord) : WriteOp → Option DocumentRecord
  | .http u d b now =>
    match (writeDocument st st false u d b now).result with
    | .created r => some r
    | .ok r => some r
    | _ => st
  | .rt u p now =>
    (handleRealtimeUpdate st st false [] 0 u p now true (fun _ => true)).memory

/-- Whether the write is accepted (produces a new record). -/
def writeAccepted (st : Option DocumentRecord) : WriteOp → Bool
  | .http u d b now =>
    match (writeDocument st st false u d b now).result with
    | .created _ => true
    | .ok _ => true
    | _ => false
  | .rt u _ _ =>
    match ensureDocumentLoaded st st with
    | none => false
    | some r => r.ownerId == u

def applyWrites (st : Option DocumentRecord) : List WriteOp → Option DocumentRecord
  | [] => st
  | op :: ops => applyWrites (applyWrite st op) ops

def countAccepted (st : Option DocumentRecord) : List WriteOp → Nat
  | [] => 0
  | op :: ops => (if writeAccepted st op then 1 else 0) + countAccepted (applyWrite st op) ops

/-- The version of the stored record, `0` when no record exists yet. -/
def docVersion : Option DocumentRecord → Nat
  | none => 0
  | some r => r.version

/-! ### UserIndexDO: list and tag vocabulary -/

/-- The inner loop of `aggregateTags` over one entry's tags: `seen` is the
JS `Map` from lowercase key to first-seen casing, which preserves insertion
order, so a fresh key is appended at the end. -/
def aggSeenTags : List (List Char) → List (List Char × List Char) → List (List Char × List Char)
  | [], seen => seen
  | t :: rest, seen =>
    match sanitizeTagValue (.vstr t) with
    | none => aggSeenTags rest seen
    | some s =>
      if lowerKey s ∈ seen.map Prod.fst then aggSeenTags rest seen
      else aggSeenTags rest (seen ++ [(lowerKey s, s)])

/-- The outer loop of `aggregateTags` over the entries. -/
def aggSeenEntries : List DocumentMetadata → List (List Char × List Char) → List (List Char × List Char)
  | [], seen => seen
  | e :: rest, seen => aggSeenEntries rest (aggSeenTags e.tags seen)

/-- `aggregateTags`: the first-seen casings in insertion order, sorted.
`localeCompare` is modelled as code-point lexicographic comparison. -/
def aggregateTags (entries : List DocumentMetadata) : List (List Char) :=
  List.insertionSort (· ≤ ·) ((aggSeenEntries entries []).map Prod.snd)

/-- The comparator of `UserIndexDO.listDocs`:
`new Date(b.updatedAt).getTime() - new Date(a.updatedAt).getTime()` sorts by
`updatedAt` descending. -/
def byUpdatedAtDesc (a b : DocumentMetadata) : Prop := b.updatedAt ≤ a.updatedAt

instance : DecidableRel byUpdatedAtDesc :=
  fun a b => inferInstanceAs (Decidable (b.updatedAt ≤ a.updatedAt))

instance : IsTotal DocumentMetadata byUpdatedAtDesc :=
  ⟨fun a b => Nat.le_total b.updatedAt a.updatedAt⟩

instance : IsTrans DocumentMetadata byUpdatedAtDesc :=
  ⟨fun _ _ _ h h' => Nat.le_trans h' h⟩

/-- `UserIndexDO.listDocs`: the stored entries (in insertion order, as
`Object.values` yields them) sorted by `updatedAt` descending, plus the
aggregate tag vocabulary of the sorted list. -/
def listDocs (entries : List DocumentMetadata) : List DocumentMetadata × List (List Char) :=
  let list := List.insertionSort byUpdatedAtDesc entries
  (list, aggregateTags list)

/-! ### Router CORS -/

/-- `String.prototype.split` with a one-character separator. -/
def splitOnChar (sep : Char) : List Char → List (List Char)
  | [] => [[]]
  | c :: rest =>
    match splitOnChar sep rest with
    | [] => [[c]]
    | g :: gs => if c = sep then [] :: g :: gs else (c :: g) :: gs

/-- `env.ALLOWED_ORIGINS?.split(',').map((origin) => origin.trim())` for a
present env value. -/
def parseAllowedOrigins (s : List Char) : List (List Char) :=
  (splitOnChar ',' s).map trimWs

/-- The `allowOrigin ?? '*'` value for a configured (split and trimmed)
origin list. -/
def corsAllowOriginList (configured : List (List Char)) (requestOrigin : Option (List Char)) :
    List Char :=
  if 0 < configured.length then
    if ['*'] ∈ configured then ['*']
    else if requestOrigin.getD [] ∈ configured then requestOrigin.getD ['*']
    else configured.headD ['*']
  else requestOrigin.getD ['*']

/-- The `Access-Control-Allow-Origin` value chosen by `corsHeaders`. -/
def corsAllowOrigin (allowedOriginsEnv requestOrigin : Option (List Char)) : List Char :=
  match allowedOriginsEnv with
  | some s => corsAllowOriginList (parseAllowedOrigins s) requestOrigin
  | none => requestOrigin.getD ['*']

/-- The CORS headers every worker response carries. -/
structure CorsHeaders where
  allowOrigin : List Char
  allowCredentials : List Char
  varyOrigin : Bool
deriving DecidableEq

/-- `corsHeaders(request, env)`. -/
def corsHeaders (allowedOriginsEnv requestOrigin : Option (List Char)) : CorsHeaders :=
  { allowOrigin := corsAllowOrigin allowedOriginsEnv requestOrigin,
    allowCredentials := "true".data,
    varyOrigin := true }

/-- The `OPTIONS` short-circuit response (`emptyResponse`, status 204, no
body, CORS headers only). -/
structure EmptyCorsResponse where
  status : Nat
  headers : CorsHeaders
  hasBody : Bool
deriving DecidableEq

def emptyResponse (allowedOriginsEnv requestOrigin : Option (List Char)) : EmptyCorsResponse :=
  { status := 204, headers := corsHeaders allowedOriginsEnv requestOrigin, hasBody := false }

/-- The first lines of the worker `fetch` handler: an `OPTIONS` request is
answered with `emptyResponse` before authentication or routing. -/
def fetchOptionsShortCircuit (method : List Char) (allowedOriginsEnv requestOrigin : Option (List Char)) :
    Option EmptyCorsResponse :=
  if method = "OPTIONS".data then some (emptyResponse allowedOriginsEnv requestOrigin) else none

/-! ### Helper lemmas -/

theorem normalizeTagsInput_eq_none (v : JVal) (h : v.isArray = false) :
    normalizeTagsInput v = none := by
  cases v <;> simp_all [JVal.isArray, normalizeTagsInput]

/-! ### Claim theorems -/


/-- C9: on the first write to a non-existent document carrying the initialize
flag, an omitted `ownerId` defaults to the caller and creation succeeds with
the caller as owner; the 403 on creation happens exactly when an explicit
`ownerId` different from the caller is supplied. -/
theorem initializeOwnerDefault (userId docId : String) (body : WriteBody) (now : Nat) :
    (body.initFlag = true → body.ownerId = none →
      (writeDocument none none false userId docId body now).result =
        .created { docId := docId, ownerId := userId, title := body.title.getD "",
                   content := body.content.getD "", tags := ensureDocumentTags body.tags,
                   createdAt := now, updatedAt := now, version := 1 }) ∧
    ((writeDocument none none false userId docId body now).result = .forbidden ↔
      body.initFlag = true ∧ ∃ o, body.ownerId = some o ∧ o ≠ userId) := by
  constructor
  · intro hinit howner
    simp [writeDocument, ensureDocumentLoaded, hinit, howner]
  · constructor
    · intro h
      by_cases hinit : body.initFlag = true
      · cases howner : body.ownerId with
        | none => simp [writeDocument, ensureDocumentLoaded, hinit, howner] at h
        | some o =>
          by_cases ho : o = userId
          · simp [writeDocument, ensureDocumentLoaded, hinit, howner, ho] at h
          · exact ⟨hinit, o, rfl, ho⟩
      · simp only [Bool.not_eq_true] at hinit
        simp [writeDocument, ensureDocumentLoaded, hinit] at h
    · rintro ⟨hinit, o, howner, ho⟩
      simp [writeDocument, ensureDocumentLoaded, hinit, howner, ho]

/-- Closed witness for `initializeOwnerDefault`. -/
theorem initializeOwnerDefault_witness :
    (writeDocument none none false "alice" "doc-1"
        { title := none, content := none, tags := .vnull, initFlag := true, ownerId := none }
        3).result =
      .created { docId := "doc-1", ownerId := "alice", title := "", content := "",
                 tags := [], createdAt := 3, updatedAt := 3, version := 1 } :=
  (initializeOwnerDefault "alice" "doc-1"
    { title := none, content := none, tags := .vnull, initFlag := true, ownerId := none } 3).1
    rfl rfl

/-- C10 (amended): in an update to an existing document, a non-array `tags`
value is treated exactly like an omitted `tags` field (no error, and the
loaded record's tag list is kept), while an empty array clears the tags —
on the HTTP write path and on the realtime update path alike.  The loaded
list equals the stored prior list except that a cold load re-normalizes it,
which changes a truncation-produced trailing-whitespace tag (see
`nonArrayTagsCounterexample`). -/
theorem nonArrayTagsIgnored (storage memory : Option DocumentRecord) (dirty : Bool)
    (connections : List (Nat × String)) (sender : Nat) (u d : String)
    (body : WriteBody) (payload : RtPayload) (now : Nat) (record : DocumentRecord)
    (hload : ensureDocumentLoaded storage memory = some record)
    (howner : record.ownerId = u) :
    (body.tags.isArray = false →
      ∃ r, (writeDocument storage memory dirty u d body now).result = .ok r ∧
        r.tags = record.tags) ∧
    (body.tags = .varr [] →
      ∃ r, (writeDocument storage memory dirty u d body now).result = .ok r ∧ r.tags = []) ∧
    (payload.tags.isArray = false →
      ∃ r, (handleRealtimeUpdate storage memory dirty connections sender u payload now true
              (fun _ => true)).memory = some r ∧
        r.tags = record.tags ∧
        (handleRealtimeUpdate storage memory dirty connections sender u payload now true
            (fun _ => true)).closeCode = none ∧
        (handleRealtimeUpdate storage memory dirty connections sender u payload now true
            (fun _ => true)).threw = false) ∧
    (payload.tags = .varr [] →
      ∃ r, (handleRealtimeUpdate storage memory dirty connections sender u payload now true
              (fun _ => true)).memory = some r ∧ r.tags = []) ∧
    (∀ stored : DocumentRecord,
      ensureDocumentLoaded (some stored) none =
        some { stored with tags := ensureDocumentTags (.varr (stored.tags.map .vstr)) }) := by
  subst howner
  refine ⟨fun hta => ?_, fun hta => ?_, fun hta => ?_, fun hta => ?_, fun _ => rfl⟩
  · refine ⟨{ record with
        title := body.title.getD record.title,
        content := body.content.getD record.content,
        tags := (normalizeTagsInput body.tags).getD record.tags,
        updatedAt := now, version := record.version + 1 }, ?_, ?_⟩
    · simp [writeDocument, hload]
    · simp [normalizeTagsInput_eq_none _ hta]
  · refine ⟨{ record with
        title := body.title.getD record.title,
        content := body.content.getD record.content,
        tags := (normalizeTagsInput body.tags).getD record.tags,
        updatedAt := now, version := record.version + 1 }, ?_, ?_⟩
    · simp [writeDocument, hload]
    · simp [hta, normalizeTagsInput, normLoop]
  · refine ⟨{ record with
        title := payload.title.getD record.title,
        content := payload.content.getD record.content,
        tags := (normalizeTagsInput payload.tags).getD record.tags,
        updatedAt := now, version := record.version + 1 }, ?_, ?_, ?_, ?_⟩
    · simp [handleRealtimeUpdate, hload, persistNow]
    · simp [normalizeTagsInput_eq_none _ hta]
    · simp [handleRealtimeUpdate, hload, persistNow]
    · simp [handleRealtimeUpdate, hload, persistNow]
  · refine ⟨{ record with
        title := payload.title.getD record.title,
        content := payload.content.getD record.content,
        tags := (normalizeTagsInput payload.tags).getD record.tags,
        updatedAt := now, version := record.version + 1 }, ?_, ?_⟩
    · simp [handleRealtimeUpdate, hload, persistNow]
    · simp [hta, normalizeTagsInput, normLoop]

/-- Closed witness for `nonArrayTagsIgnored`. -/
theorem nonArrayTagsIgnored_witness :
    ∃ r, (writeDocument
        (some { docId := "doc-1", ownerId := "alice", title := "t", content := "c",
                tags := ["x".data], createdAt := 0, updatedAt := 0, version := 1 })
        none false "alice" "doc-1"
        { title := none, content := none, tags := .vnum 3, initFlag := false, ownerId := none }
        7).result = .ok r ∧ r.tags = ["x".data] :=
  (nonArrayTagsIgnored
    (some { docId := "doc-1", ownerId := "alice", title := "t", content := "c",
            tags := ["x".data], createdAt := 0, updatedAt := 0, version := 1 })
    none false [] 0 "alice" "doc-1"
    { title := none, content := none, tags := .vnum 3, initFlag := false, ownerId := none }
    { id := .vnull, title := none, content := none, tags := .vnum 3 }
    7 _ rfl rfl).1 rfl

/-- C10 counterexample: with a stored tag of 47 `a`s plus a trailing space
(reachable through the 48-character truncation) and a cold cache, an owner
update whose `tags` is the non-array `3` succeeds but persists the
re-normalized list `47 a`s, not the stored prior list — the claimed
retention of the prior list fails. -/
theorem nonArrayTagsCounterexample :
    ((writeDocument
        (some { docId := "doc-2", ownerId := "bob", title := "t", content := "c",
                tags := [List.replicate 47 'a' ++ [' ']], createdAt := 0, updatedAt := 0,
                version := 4 })
        none false "bob" "doc-2"
        { title := none, content := none, tags := .vnum 3, initFlag := false,
          ownerId := none } 11).result =
      .ok { docId := "doc-2", ownerId := "bob", title := "t", content := "c",
            tags := [List.replicate 47 'a'], createdAt := 0, updatedAt := 11, version := 5 }) ∧
    ([List.replicate 47 'a'] : List (List Char)) ≠ [List.replicate 47 'a' ++ [' ']] := by
  refine ⟨by decide, by decide⟩

/-- C4: for an existing document and a caller different from its owner, the
Document Actor answers 403 on read, on write, and on realtime upgrade, and
each of the three leaves the stored record (and the rest of the actor state)
unchanged. -/
theorem ownershipEnforcement (storage memory : Option DocumentRecord) (dirty : Bool)
    (connections : List (Nat × String)) (caller d : String) (socket : Nat)
    (body : WriteBody) (now : Nat) (record : DocumentRecord)
    (hload : ensureDocumentLoaded storage memory = some record)
    (hne : record.ownerId ≠ caller) :
    readDocument storage memory caller = (.forbidden, storage) ∧
    writeDocument storage memory dirty caller d body now =
      { result := .forbidden, storage := storage, memory := memory, dirty := dirty,
        indexPushes := [] } ∧
    handleRealtimeSync storage memory connections caller socket =
      { result := .forbidden, storage := storage, connections := connections, msgs := [] } := by
  refine ⟨?_, ?_, ?_⟩
  · simp [readDocument, hload, hne]
  · simp [writeDocument, hload, hne]
  · simp [handleRealtimeSync, hload, hne]

/-- Closed witness for `ownershipEnforcement`. -/
theorem ownershipEnforcement_witness :
    readDocument
        (some { docId := "doc-1", ownerId := "alice", title := "t", content := "c",
                tags := [], createdAt := 0, updatedAt := 0, version := 1 })
        none "mallory" =
      (.forbidden,
        some { docId := "doc-1", ownerId := "alice", title := "t", content := "c",
               tags := [], createdAt := 0, updatedAt := 0, version := 1 }) :=
  (ownershipEnforcement
    (some { docId := "doc-1", ownerId := "alice", title := "t", content := "c",
            tags := [], createdAt := 0, updatedAt := 0, version := 1 })
    none false [] "mallory" "doc-1" 0
    { title := none, content := none, tags := .vnull, initFlag := false, ownerId := none }
    0 _ rfl (by decide)).1

/-- C5 (amended): an accepted update by the owner merges field by field
against the loaded record — omitted title/content/tags keep the loaded
value, a supplied title/content replaces it, supplied tags go through the
tag sanitization — refreshes `updatedAt`, and leaves `docId`, `ownerId` and
`createdAt` untouched; the same holds on the realtime path.  The loaded
record equals the stored prior record except on a cold load, where the
Document Actor re-normalizes the stored tags — so an omitted tags field
retains the stored prior list only up to that re-normalization (see
`updateMergeFrameCounterexample`). -/
theorem updateMergeFrame (storage memory : Option DocumentRecord) (dirty : Bool)
    (connections : List (Nat × String)) (sender : Nat) (u d : String)
    (body : WriteBody) (payload : RtPayload) (now : Nat) (record : DocumentRecord)
    (hload : ensureDocumentLoaded storage memory = some record)
    (howner : record.ownerId = u) :
    (∃ upd, (writeDocument storage memory dirty u d body now).result = .ok upd ∧
      upd.title = body.title.getD record.title ∧
      upd.content = body.content.getD record.content ∧
      upd.tags = (normalizeTagsInput body.tags).getD record.tags ∧
      upd.updatedAt = now ∧ upd.version = record.version + 1 ∧
      upd.docId = record.docId ∧ upd.ownerId = record.ownerId ∧
      upd.createdAt = record.createdAt) ∧
    (∃ upd, (handleRealtimeUpdate storage memory dirty connections sender u payload now true
        (fun _ => true)).memory = some upd ∧
      upd.title = payload.title.getD record.title ∧
      upd.content = payload.content.getD record.content ∧
      upd.tags = (normalizeTagsInput payload.tags).getD record.tags ∧
      upd.updatedAt = now ∧ upd.version = record.version + 1 ∧
      upd.docId = record.docId ∧ upd.ownerId = record.ownerId ∧
      upd.createdAt = record.createdAt) ∧
    (∀ stored : DocumentRecord,
      ensureDocumentLoaded (some stored) none =
        some { stored with tags := ensureDocumentTags (.varr (stored.tags.map .vstr)) }) := by
  subst howner
  refine ⟨?_, ?_, fun stored => rfl⟩
  · refine ⟨{ record with
        title := body.title.getD record.title,
        content := body.content.getD record.content,
        tags := (normalizeTagsInput body.tags).getD record.tags,
        updatedAt := now, version := record.version + 1 },
      ?_, rfl, rfl, rfl, rfl, rfl, rfl, rfl, rfl⟩
    simp [writeDocument, hload]
  · refine ⟨{ record with
        title := payload.title.getD record.title,
        content := payload.content.getD record.content,
        tags := (normalizeTagsInput payload.tags).getD record.tags,
        updatedAt := now, version := record.version + 1 },
      ?_, rfl, rfl, rfl, rfl, rfl, rfl, rfl, rfl⟩
    simp [handleRealtimeUpdate, hload, persistNow]

/-- Closed witness for `updateMergeFrame`. -/
theorem updateMergeFrame_witness :
    ∃ upd, (writeDocument
        (some { docId := "doc-1", ownerId := "alice", title := "t", content := "c",
                tags := ["x".data], createdAt := 2, updatedAt := 2, version := 4 })
        none false "alice" "doc-1"
        { title := some "t2", content := none, tags := .vnull, initFlag := false,
          ownerId := none } 9).result = .ok upd ∧
      upd.title = "t2" ∧ upd.content = "c" ∧ upd.tags = ["x".data] ∧
      upd.updatedAt = 9 ∧ upd.version = 5 ∧
      upd.docId = "doc-1" ∧ upd.ownerId = "alice" ∧ upd.createdAt = 2 :=
  (updateMergeFrame
    (some { docId := "doc-1", ownerId := "alice", title := "t", content := "c",
            tags := ["x".data], createdAt := 2, updatedAt := 2, version := 4 })
    none false [] 0 "alice" "doc-1"
    { title := some "t2", content := none, tags := .vnull, initFlag := false, ownerId := none }
    { id := .vnull, title := none, content := none, tags := .vnull }
    9 _ rfl rfl).1

/-- C5 counterexample: a stored tag of 47 `a`s plus a trailing space (which
the 48-character truncation produces, see `tagNormalizationNotIdempotent`)
is re-normalized on a cold load, so an owner update that omits `tags` — on
an actor whose cache is cold — persists `47 a`s, not the stored prior list:
the claimed retention of the prior value fails. -/
theorem updateMergeFrameCounterexample :
    ((writeDocument
        (some { docId := "doc-1", ownerId := "alice", title := "t", content := "c",
                tags := [List.replicate 47 'a' ++ [' ']], createdAt := 0, updatedAt := 0,
                version := 1 })
        none false "alice" "doc-1"
        { title := some "t2", content := none, tags := .vnull, initFlag := false,
          ownerId := none } 9).result =
      .ok { docId := "doc-1", ownerId := "alice", title := "t2", content := "c",
            tags := [List.replicate 47 'a'], createdAt := 0, updatedAt := 9, version := 2 }) ∧
    ([List.replicate 47 'a'] : List (List Char)) ≠ [List.replicate 47 'a' ++ [' ']] := by
  refine ⟨by decide, by decide⟩

/-- The loaded record of an actor whose cache and storage agree. -/
theorem ensureDocumentLoaded_self (st : Option DocumentRecord) :
    ensureDocumentLoaded st st = st := by
  cases st <;> rfl

/-- One write changes `docVersion` by exactly one when accepted and not at
all when rejected. -/
theorem docVersion_applyWrite (st : Option DocumentRecord) (op : WriteOp) :
    docVersion (applyWrite st op) =
      docVersion st + (if writeAccepted st op then 1 else 0) := by
  cases op with
  | http u d b now =>
    cases st with
    | none =>
      by_cases hinit : b.initFlag = true
      · by_cases ho : b.ownerId.getD u = u
        · simp [applyWrite, writeAccepted, writeDocument, ensureDocumentLoaded, hinit, ho,
            docVersion]
        · simp [applyWrite, writeAccepted, writeDocument, ensureDocumentLoaded, hinit, ho,
            docVersion]
      · simp only [Bool.not_eq_true] at hinit
        simp [applyWrite, writeAccepted, writeDocument, ensureDocumentLoaded, hinit, docVersion]
    | some ex =>
      by_cases h : ex.ownerId = u
      · simp [applyWrite, writeAccepted, writeDocument, ensureDocumentLoaded, h, docVersion]
      · simp [applyWrite, writeAccepted, writeDocument, ensureDocumentLoaded, h, docVersion]
  | rt u p now =>
    cases st with
    | none =>
      simp [applyWrite, writeAccepted, handleRealtimeUpdate, ensureDocumentLoaded, docVersion]
    | some ex =>
      by_cases h : ex.ownerId = u
      · simp [applyWrite, writeAccepted, handleRealtimeUpdate, ensureDocumentLoaded, h,
          persistNow, docVersion]
      · simp [applyWrite, writeAccepted, handleRealtimeUpdate, ensureDocumentLoaded, h,
          persistNow, docVersion]

/-- C1: the first accepted initialize write creates the record at version 1;
every accepted update (HTTP or realtime) produces a record at exactly the
prior version plus one; and over any sequence of writes the stored version
grows by exactly the number of accepted writes — so it strictly increases by
one per accepted write and never regresses or repeats. -/
theorem documentVersionCounter :
    (∀ (storage memory : Option DocumentRecord) (dirty : Bool) (u d : String)
        (b : WriteBody) (now : Nat) (r : DocumentRecord),
      ensureDocumentLoaded storage memory = none →
      (writeDocument storage memory dirty u d b now).result = .created r →
      r.version = 1) ∧
    (∀ (storage memory : Option DocumentRecord) (dirty : Bool) (u d : String)
        (b : WriteBody) (now : Nat) (prev r : DocumentRecord),
      ensureDocumentLoaded storage memory = some prev →
      (writeDocument storage memory dirty u d b now).result = .ok r →
      r.version = prev.version + 1) ∧
    (∀ (storage memory : Option DocumentRecord) (dirty : Bool)
        (connections : List (Nat × String)) (sender : Nat) (su : String)
        (p : RtPayload) (now : Nat) (syncOk : Bool) (sendOk : Nat → Bool)
        (prev r : DocumentRecord),
      ensureDocumentLoaded storage memory = some prev →
      prev.ownerId = su →
      (handleRealtimeUpdate storage memory dirty connections sender su p now syncOk
          sendOk).memory = some r →
      r.version = prev.version + 1) ∧
    (∀ (st : Option DocumentRecord) (ops : List WriteOp),
      docVersion (applyWrites st ops) = docVersion st + countAccepted st ops) := by
  refine ⟨?_, ?_, ?_, ?_⟩
  · intro storage memory dirty u d b now r hload h
    by_cases hinit : b.initFlag = true
    · by_cases ho : b.ownerId.getD u = u
      · simp [writeDocument, hload, hinit, ho] at h
        rw [← h]
      · simp [writeDocument, hload, hinit, ho] at h
    · simp only [Bool.not_eq_true] at hinit
      simp [writeDocument, hload, hinit] at h
  · intro storage memory dirty u d b now prev r hload h
    by_cases howner : prev.ownerId = u
    · simp [writeDocument, hload, howner] at h
      rw [← h]
    · simp [writeDocument, hload, howner] at h
  · intro storage memory dirty connections sender su p now syncOk sendOk prev r hload howner h
    subst howner
    cases syncOk <;> (simp [handleRealtimeUpdate, hload, persistNow] at h; rw [← h])
  · intro st ops
    induction ops generalizing st with
    | nil => simp [applyWrites, countAccepted]
    | cons op ops ih =>
      simp only [applyWrites, countAccepted]
      rw [ih (applyWrite st op), docVersion_applyWrite, Nat.add_assoc]

/-- Closed witness for `documentVersionCounter`. -/
theorem documentVersionCounter_witness :
    ({ docId := "doc-1", ownerId := "alice", title := "", content := "", tags := [],
       createdAt := 3, updatedAt := 3, version := 1 } : DocumentRecord).version = 1 ∧
    docVersion (applyWrites none [WriteOp.http "alice" "doc-1"
        { title := none, content := none, tags := .vnull, initFlag := true, ownerId := none }
        1]) =
      docVersion none + countAccepted none [WriteOp.http "alice" "doc-1"
        { title := none, content := none, tags := .vnull, initFlag := true, ownerId := none }
        1] :=
  ⟨documentVersionCounter.1 none none false "alice" "doc-1"
      { title := none, content := none, tags := .vnull, initFlag := true, ownerId := none }
      3 _ rfl rfl,
    documentVersionCounter.2.2.2 none _⟩

/-- The fan-out of `broadcastToOthers` is exactly one `remote-update` per
connected socket other than the origin, in registration order, each
attempted independently of the other sends' outcomes. -/
theorem broadcastToOthers_eq (connections : List (Nat × String)) (origin : Nat)
    (record : DocumentRecord) (sendOk : Nat → Bool) :
    broadcastToOthers connections origin record sendOk =
      ((connections.map Prod.fst).filter (fun s => s != origin)).map
        (fun s => { target := s, msg := .remoteUpdate record, delivered := sendOk s }) := by
  induction connections with
  | nil => rfl
  | cons c rest ih =>
    obtain ⟨s, uid⟩ := c
    by_cases h : s = origin
    · simp [broadcastToOthers, h, ih]
    · simp [broadcastToOthers, h, ih]

/-- C6 (amended): an accepted realtime update applies the same merge/version
logic as the HTTP write (literally: the HTTP write on the same fields returns
the same record).  When the persistence step — including its index push —
succeeds (`syncOk = true`), the sender gets exactly one `ack` carrying the
echoed correlation id and the new record, followed by one `remote-update`
with that record to every other currently connected socket and to nobody
else, and a peer send failure (`sendOk` false on a non-sender socket) changes
only that send's `delivered` flag, never the ack or the other sends.  When
the index push fails (`syncOk = false`), the accepted update is still applied
in memory, but no ack and no fan-out are sent — the rejection escapes
`handleRealtimeUpdate` before any send (see
`realtimeAckSkippedCounterexample`). -/
theorem realtimeUpdateAckFanout (storage memory : Option DocumentRecord) (dirty : Bool)
    (connections : List (Nat × String)) (sender : Nat) (su : String)
    (payload : RtPayload) (now : Nat) (sendOk : Nat → Bool) (record : DocumentRecord)
    (hload : ensureDocumentLoaded storage memory = some record)
    (howner : record.ownerId = su)
    (hsend : sendOk sender = true) :
    ∃ nextRecord,
      (writeDocument storage memory dirty su record.docId
          { title := payload.title, content := payload.content, tags := payload.tags,
            initFlag := false, ownerId := none } now).result = .ok nextRecord ∧
      (handleRealtimeUpdate storage memory dirty connections sender su payload now true
          sendOk).msgs =
        { target := sender, msg := .ack (ackId payload.id) nextRecord, delivered := true } ::
          ((connections.map Prod.fst).filter (fun s => s != sender)).map
            (fun s => { target := s, msg := .remoteUpdate nextRecord,
                        delivered := sendOk s }) ∧
      (handleRealtimeUpdate storage memory dirty connections sender su payload now true
          sendOk).storage = some nextRecord ∧
      (handleRealtimeUpdate storage memory dirty connections sender su payload now true
          sendOk).threw = false ∧
      (handleRealtimeUpdate storage memory dirty connections sender su payload now false
          sendOk).msgs = [] ∧
      (handleRealtimeUpdate storage memory dirty connections sender su payload now false
          sendOk).memory = some nextRecord := by
  subst howner
  refine ⟨{ record with
      title := payload.title.getD record.title,
      content := payload.content.getD record.content,
      tags := (normalizeTagsInput payload.tags).getD record.tags,
      updatedAt := now, version := record.version + 1 }, ?_, ?_, ?_, ?_, ?_, ?_⟩
  · simp [writeDocument, hload]
  · simp [handleRealtimeUpdate, hload, persistNow, hsend, broadcastToOthers_eq]
  · simp [handleRealtimeUpdate, hload, persistNow]
  · simp [handleRealtimeUpdate, hload, persistNow, hsend]
  · simp [handleRealtimeUpdate, hload, persistNow]
  · simp [handleRealtimeUpdate, hload, persistNow]

/-- Closed witness for `realtimeUpdateAckFanout`: three sockets, the send to
peer 1 throws, the ack to the sender and the send to peer 2 still happen. -/
theorem realtimeUpdateAckFanout_witness :
    ∃ nextRecord,
      (writeDocument
          (some { docId := "doc-1", ownerId := "alice", title := "t", content := "c",
                  tags := [], createdAt := 0, updatedAt := 0, version := 1 })
          none false "alice" "doc-1"
          { title := some "t2", content := none, tags := .vnull, initFlag := false,
            ownerId := none } 7).result = .ok nextRecord ∧
      (handleRealtimeUpdate
          (some { docId := "doc-1", ownerId := "alice", title := "t", content := "c",
                  tags := [], createdAt := 0, updatedAt := 0, version := 1 })
          none false [(0, "alice"), (1, "alice"), (2, "alice")] 0 "alice"
          { id := .vnum 5, title := some "t2", content := none, tags := .vnull } 7 true
          (fun s => s != 1)).msgs =
        { target := 0, msg := .ack (ackId (.vnum 5)) nextRecord, delivered := true } ::
          (([0, 1, 2].filter (fun s => s != 0)).map
            (fun s => { target := s, msg := .remoteUpdate nextRecord,
                        delivered := s != 1 })) ∧
      (handleRealtimeUpdate
          (some { docId := "doc-1", ownerId := "alice", title := "t", content := "c",
                  tags := [], createdAt := 0, updatedAt := 0, version := 1 })
          none false [(0, "alice"), (1, "alice"), (2, "alice")] 0 "alice"
          { id := .vnum 5, title := some "t2", content := none, tags := .vnull } 7 true
          (fun s => s != 1)).storage = some nextRecord ∧
      (handleRealtimeUpdate
          (some { docId := "doc-1", ownerId := "alice", title := "t", content := "c",
                  tags := [], createdAt := 0, updatedAt := 0, version := 1 })
          none false [(0, "alice"), (1, "alice"), (2, "alice")] 0 "alice"
          { id := .vnum 5, title := some "t2", content := none, tags := .vnull } 7 true
          (fun s => s != 1)).threw = false ∧
      (handleRealtimeUpdate
          (some { docId := "doc-1", ownerId := "alice", title := "t", content := "c",
                  tags := [], createdAt := 0, updatedAt := 0, version := 1 })
          none false [(0, "alice"), (1, "alice"), (2, "alice")] 0 "alice"
          { id := .vnum 5, title := some "t2", content := none, tags := .vnull } 7 false
          (fun s => s != 1)).msgs = [] ∧
      (handleRealtimeUpdate
          (some { docId := "doc-1", ownerId := "alice", title := "t", content := "c",
                  tags := [], createdAt := 0, updatedAt := 0, version := 1 })
          none false [(0, "alice"), (1, "alice"), (2, "alice")] 0 "alice"
          { id := .vnum 5, title := some "t2", content := none, tags := .vnull } 7 false
          (fun s => s != 1)).memory = some nextRecord :=
  realtimeUpdateAckFanout
    (some { docId := "doc-1", ownerId := "alice", title := "t", content := "c",
            tags := [], createdAt := 0, updatedAt := 0, version := 1 })
    none false [(0, "alice"), (1, "alice"), (2, "alice")] 0 "alice"
    { id := .vnum 5, title := some "t2", content := none, tags := .vnull } 7
    (fun s => s != 1) _ rfl rfl rfl

/-- C6 counterexample: an accepted realtime update (owner matches, record
merged at version + 1) whose index push fails sends no ack and no fan-out at
all — `persistNow`'s rejection escapes before any send — so the claimed
unconditional ack and fan-out for every accepted update fail. -/
theorem realtimeAckSkippedCounterexample :
    ((handleRealtimeUpdate
        (some { docId := "doc-3", ownerId := "carol", title := "t", content := "c",
                tags := [], createdAt := 0, updatedAt := 0, version := 6 })
        none false [(0, "carol"), (1, "carol")] 0 "carol"
        { id := .vnum 9, title := some "t9", content := none, tags := .vnull } 5 false
        (fun _ => true)).memory =
      some { docId := "doc-3", ownerId := "carol", title := "t9", content := "c",
             tags := [], createdAt := 0, updatedAt := 5, version := 7 }) ∧
    ((handleRealtimeUpdate
        (some { docId := "doc-3", ownerId := "carol", title := "t", content := "c",
                tags := [], createdAt := 0, updatedAt := 0, version := 6 })
        none false [(0, "carol"), (1, "carol")] 0 "carol"
        { id := .vnum 9, title := some "t9", content := none, tags := .vnull } 5 false
        (fun _ => true)).msgs = []) := by
  refine ⟨rfl, rfl⟩

/-- C2 counterexample: a realtime update whose index push fails is persisted
(and the push was attempted), but `handleRealtimeUpdate` ends in an error
without sending the ack — the failure is not recovered at the Document Actor
boundary; and an accepted HTTP write via `writeDocument` issues no index push
from the Document Actor at all. -/
theorem indexPushFailureCounterexample :
    ((handleRealtimeUpdate
        (some { docId := "doc-1", ownerId := "alice", title := "t", content := "c",
                tags := [], createdAt := 0, updatedAt := 0, version := 1 })
        none false [(0, "alice"), (1, "alice")] 0 "alice"
        { id := .vnum 5, title := some "t2", content := none, tags := .vnull } 7 false
        (fun _ => true)).threw = true) ∧
    ((handleRealtimeUpdate
        (some { docId := "doc-1", ownerId := "alice", title := "t", content := "c",
                tags := [], createdAt := 0, updatedAt := 0, version := 1 })
        none false [(0, "alice"), (1, "alice")] 0 "alice"
        { id := .vnum 5, title := some "t2", content := none, tags := .vnull } 7 false
        (fun _ => true)).msgs = []) ∧
    ((handleRealtimeUpdate
        (some { docId := "doc-1", ownerId := "alice", title := "t", content := "c",
                tags := [], createdAt := 0, updatedAt := 0, version := 1 })
        none false [(0, "alice"), (1, "alice")] 0 "alice"
        { id := .vnum 5, title := some "t2", content := none, tags := .vnull } 7 false
        (fun _ => true)).storage =
      some { docId := "doc-1", ownerId := "alice", title := "t2", content := "c",
             tags := [], createdAt := 0, updatedAt := 7, version := 2 }) ∧
    ((handleRealtimeUpdate
        (some { docId := "doc-1", ownerId := "alice", title := "t", content := "c",
                tags := [], createdAt := 0, updatedAt := 0, version := 1 })
        none false [(0, "alice"), (1, "alice")] 0 "alice"
        { id := .vnum 5, title := some "t2", content := none, tags := .vnull } 7 false
        (fun _ => true)).indexPushes =
      [{ docId := "doc-1", ownerId := "alice", title := "t2", content := "c",
         tags := [], createdAt := 0, updatedAt := 7, version := 2 }]) ∧
    ((writeDocument
        (some { docId := "doc-1", ownerId := "alice", title := "t", content := "c",
                tags := [], createdAt := 0, updatedAt := 0, version := 1 })
        none false "alice" "doc-1"
        { title := some "t2", content := none, tags := .vnull, initFlag := false,
          ownerId := none } 7).indexPushes = []) :=
  ⟨rfl, rfl, rfl, rfl, rfl⟩

/-- C2 (amended): whenever `persistNow` persists a loaded, dirty record it
first writes storage and then attempts exactly one index push to the owning
Index Actor; a push failure does not roll back the stored record, but it is
not recovered locally — the rejection propagates out of `persistNow`, so the
triggering realtime update ends in an error and sends no ack (the record
itself stays persisted and merged).  Accepted HTTP writes persist directly in
`writeDocument` and issue no index push from the Document Actor. -/
theorem indexPushBehavior :
    (∀ (d : DocumentRecord) (storage : Option DocumentRecord) (syncOk : Bool),
      (persistNow (some d) true false storage syncOk).storage = some d ∧
      (persistNow (some d) true false storage syncOk).indexPushes = [d] ∧
      (persistNow (some d) true false storage syncOk).threw = !syncOk) ∧
    (∀ (storage memory : Option DocumentRecord) (dirty : Bool)
        (connections : List (Nat × String)) (sender : Nat) (su : String)
        (payload : RtPayload) (now : Nat) (record : DocumentRecord),
      ensureDocumentLoaded storage memory = some record →
      record.ownerId = su →
      (handleRealtimeUpdate storage memory dirty connections sender su payload now false
          (fun _ => true)).threw = true ∧
      (handleRealtimeUpdate storage memory dirty connections sender su payload now false
          (fun _ => true)).msgs = [] ∧
      ∃ r, (handleRealtimeUpdate storage memory dirty connections sender su payload now false
              (fun _ => true)).storage = some r ∧
        (handleRealtimeUpdate storage memory dirty connections sender su payload now false
            (fun _ => true)).indexPushes = [r] ∧
        r.version = record.version + 1) ∧
    (∀ (storage memory : Option DocumentRecord) (dirty : Bool) (u d : String)
        (body : WriteBody) (now : Nat),
      (writeDocument storage memory dirty u d body now).indexPushes = []) := by
  refine ⟨?_, ?_, ?_⟩
  · intro d storage syncOk
    refine ⟨?_, ?_, ?_⟩ <;> simp [persistNow]
  · intro storage memory dirty connections sender su payload now record hload howner
    subst howner
    refine ⟨?_, ?_, ⟨{ record with
        title := payload.title.getD record.title,
        content := payload.content.getD record.content,
        tags := (normalizeTagsInput payload.tags).getD record.tags,
        updatedAt := now, version := record.version + 1 }, ?_, ?_, rfl⟩⟩ <;>
      simp [handleRealtimeUpdate, hload, persistNow]
  · intro storage memory dirty u d body now
    cases hl : ensureDocumentLoaded storage memory with
    | none =>
      by_cases hinit : body.initFlag = true
      · by_cases ho : body.ownerId.getD u = u <;> simp [writeDocument, hl, hinit, ho]
      · simp only [Bool.not_eq_true] at hinit
        simp [writeDocument, hl, hinit]
    | some ex =>
      by_cases h : ex.ownerId = u <;> simp [writeDocument, hl, h]

/-- Closed witness for `indexPushBehavior`. -/
theorem indexPushBehavior_witness :
    (handleRealtimeUpdate
        (some { docId := "doc-2", ownerId := "bob", title := "t", content := "c",
                tags := [], createdAt := 0, updatedAt := 0, version := 3 })
        none false [] 0 "bob"
        { id := .vnull, title := none, content := none, tags := .vnull } 9 false
        (fun _ => true)).threw = true :=
  ((indexPushBehavior.2.1
    (some { docId := "doc-2", ownerId := "bob", title := "t", content := "c",
            tags := [], createdAt := 0, updatedAt := 0, version := 3 })
    none false [] 0 "bob"
    { id := .vnull, title := none, content := none, tags := .vnull } 9 _ rfl rfl).1)

/-- `String.prototype.split` never yields an empty array. -/
theorem splitOnChar_ne_nil (sep : Char) (l : List Char) : splitOnChar sep l ≠ [] := by
  cases l with
  | nil => simp [splitOnChar]
  | cons c rest =>
    simp only [splitOnChar]
    cases h : splitOnChar sep rest with
    | nil => simp
    | cons g gs => by_cases hc : c = sep <;> simp [hc]

/-- C7 counterexample: with the allow-list `"*"` and request origin
`https://app.example`, the `Access-Control-Allow-Origin` value is the literal
`*`, not an echo of the request's Origin as the claim states. -/
theorem corsWildcardCounterexample :
    corsAllowOrigin (some "*".data) (some "https://app.example".data) = ['*'] ∧
    "https://app.example".data ≠ ['*'] :=
  ⟨rfl, by decide⟩

/-- C7 (amended): with no configured list the header falls back to the
request's own Origin (or `*` without one); with a configured list, a
wildcard entry yields the literal `*`, otherwise the request Origin is
echoed exactly when it appears in the list, else the first configured origin
is used; every response sets `Access-Control-Allow-Credentials` and a
`Vary: Origin` marker, and `OPTIONS` short-circuits to an empty success
response carrying these same headers. -/
theorem corsHeaderBehavior (env requestOrigin : Option (List Char)) :
    (env = none → corsAllowOrigin env requestOrigin = requestOrigin.getD ['*']) ∧
    (∀ s, env = some s →
      (['*'] ∈ parseAllowedOrigins s → corsAllowOrigin env requestOrigin = ['*']) ∧
      (['*'] ∉ parseAllowedOrigins s → requestOrigin.getD [] ∈ parseAllowedOrigins s →
        corsAllowOrigin env requestOrigin = requestOrigin.getD ['*']) ∧
      (['*'] ∉ parseAllowedOrigins s → requestOrigin.getD [] ∉ parseAllowedOrigins s →
        corsAllowOrigin env requestOrigin = (parseAllowedOrigins s).headD ['*'])) ∧
    (corsHeaders env requestOrigin).allowOrigin = corsAllowOrigin env requestOrigin ∧
    (corsHeaders env requestOrigin).allowCredentials = "true".data ∧
    (corsHeaders env requestOrigin).varyOrigin = true ∧
    fetchOptionsShortCircuit "OPTIONS".data env requestOrigin =
      some { status := 204, headers := corsHeaders env requestOrigin, hasBody := false } := by
  refine ⟨?_, ?_, rfl, rfl, rfl, ?_⟩
  · intro h; subst h; rfl
  · intro s h; subst h
    have hlen : 0 < (parseAllowedOrigins s).length := by
      have hne := splitOnChar_ne_nil ',' s
      simpa [parseAllowedOrigins, List.length_map, List.length_pos] using hne
    refine ⟨?_, ?_, ?_⟩
    · intro hw
      simp [corsAllowOrigin, corsAllowOriginList, hlen, hw]
    · intro hw ho
      simp [corsAllowOrigin, corsAllowOriginList, hlen, hw, ho]
    · intro hw ho
      simp [corsAllowOrigin, corsAllowOriginList, hlen, hw, ho]
  · simp [fetchOptionsShortCircuit, emptyResponse]

/-- Closed witness for `corsHeaderBehavior`. -/
theorem corsHeaderBehavior_witness :
    corsAllowOrigin (some "a,b".data) (some "b".data) = (some "b".data).getD ['*'] :=
  ((corsHeaderBehavior (some "a,b".data) (some "b".data)).2.1 "a,b".data rfl).2.1
    (by decide) (by decide)

/-- Modelled from the spec wording for the tag vocabulary: deduplicate a tag
stream case-insensitively, keeping the first-seen casing, given the lowercase
keys already seen. -/
def dedupByKeyFirst : List (List Char) → List (List Char) → List (List Char)
  | [], _ => []
  | t :: rest, seen =>
    if lowerKey t ∈ seen then dedupByKeyFirst rest seen
    else t :: dedupByKeyFirst rest (lowerKey t :: seen)

/-- `dedupByKeyFirst` only looks at the `seen` keys as a set. -/
theorem dedupByKeyFirst_congr (l : List (List Char)) :
    ∀ (s1 s2 : List (List Char)), (∀ x, x ∈ s1 ↔ x ∈ s2) →
      dedupByKeyFirst l s1 = dedupByKeyFirst l s2 := by
  induction l with
  | nil => intro s1 s2 _; rfl
  | cons t rest ih =>
    intro s1 s2 h
    simp only [dedupByKeyFirst]
    by_cases hm : lowerKey t ∈ s1
    · rw [if_pos hm, if_pos ((h _).mp hm), ih s1 s2 h]
    · rw [if_neg hm, if_neg (fun hx => hm ((h _).mpr hx)),
        ih (lowerKey t :: s1) (lowerKey t :: s2) (by intro x; simp [h x])]

/-- The accumulating `Map` loop of `aggregateTags` computes the first-seen
dedup of the sanitized tag stream: the values extend `seen`'s values by the
deduped fresh tags, and the keys extend `seen`'s keys by their lowercase
keys. -/
theorem aggSeenTags_spec (stream : List (List Char)) :
    ∀ (seen : List (List Char × List Char)),
      (aggSeenTags stream seen).map Prod.snd =
        seen.map Prod.snd ++
          dedupByKeyFirst (stream.filterMap (fun t => sanitizeTagValue (.vstr t)))
            (seen.map Prod.fst) ∧
      (aggSeenTags stream seen).map Prod.fst =
        seen.map Prod.fst ++
          (dedupByKeyFirst (stream.filterMap (fun t => sanitizeTagValue (.vstr t)))
            (seen.map Prod.fst)).map lowerKey := by
  induction stream with
  | nil => intro seen; simp [aggSeenTags, dedupByKeyFirst]
  | cons t rest ih =>
    intro seen
    simp only [aggSeenTags, List.filterMap_cons]
    cases hs : sanitizeTagValue (.vstr t) with
    | none => exact ih seen
    | some s =>
      simp only [dedupByKeyFirst]
      by_cases hm : lowerKey s ∈ seen.map Prod.fst
      · rw [if_pos hm, if_pos hm]
        exact ih seen
      · rw [if_neg hm, if_neg hm]
        have h2 := ih (seen ++ [(lowerKey s, s)])
        simp only [List.map_append, List.map_cons, List.map_nil] at h2
        rw [dedupByKeyFirst_congr _ (seen.map Prod.fst ++ [lowerKey s])
              (lowerKey s :: seen.map Prod.fst) (by intro x; simp [or_comm])] at h2
        refine ⟨?_, ?_⟩
        · rw [h2.1]; simp
        · rw [h2.2]; simp

/-- Processing a concatenated tag stream is processing the pieces in order. -/
theorem aggSeenTags_append (l1 l2 : List (List Char)) :
    ∀ seen, aggSeenTags (l1 ++ l2) seen = aggSeenTags l2 (aggSeenTags l1 seen) := by
  induction l1 with
  | nil => intro seen; rfl
  | cons t rest ih =>
    intro seen
    simp only [List.cons_append, aggSeenTags]
    cases hs : sanitizeTagValue (.vstr t) with
    | none => exact ih seen
    | some s =>
      dsimp only
      by_cases hm : lowerKey s ∈ seen.map Prod.fst
      · rw [if_pos hm, if_pos hm]
        exact ih seen
      · rw [if_neg hm, if_neg hm]
        exact ih _

/-- The entry loop of `aggregateTags` equals one pass over the concatenation
of all entries' tags. -/
theorem aggSeenEntries_eq (entries : List DocumentMetadata) :
    ∀ seen, aggSeenEntries entries seen =
      aggSeenTags (entries.flatMap DocumentMetadata.tags) seen := by
  induction entries with
  | nil => intro seen; rfl
  | cons e rest ih =>
    intro seen
    simp only [aggSeenEntries, List.flatMap_cons, aggSeenTags_append]
    exact ih _

/-- C8: `listDocs` returns all index entries sorted by `updatedAt`
descending, together with the aggregate tag vocabulary: every returned
entry's tags collected in order, sanitized, case-insensitively deduplicated
keeping the first-seen casing, and sorted lexicographically. -/
theorem listDocsSortedAndTagVocabulary (entries : List DocumentMetadata) :
    (listDocs entries).1.Perm entries ∧
    List.Sorted byUpdatedAtDesc (listDocs entries).1 ∧
    (listDocs entries).2 = aggregateTags (listDocs entries).1 ∧
    (∀ es : List DocumentMetadata,
      aggregateTags es =
        List.insertionSort (· ≤ ·)
          (dedupByKeyFirst ((es.flatMap DocumentMetadata.tags).filterMap
            (fun t => sanitizeTagValue (.vstr t))) [])) ∧
    List.Sorted (· ≤ ·) (listDocs entries).2 := by
  refine ⟨List.perm_insertionSort _ _, List.sorted_insertionSort _ _, rfl, ?_,
    List.sorted_insertionSort _ _⟩
  intro es
  unfold aggregateTags
  rw [aggSeenEntries_eq, (aggSeenTags_spec _ _).1]
  simp

/-! ### Idempotence machinery for tag sanitization -/

/-- No two adjacent whitespace characters. -/
def NoWsRun (l : List Char) : Prop :=
  List.Chain' (fun a b => isJsWs a = false ∨ isJsWs b = false) l

/-- Every whitespace character is a plain space. -/
def AllWsSpace (l : List Char) : Prop := ∀ c ∈ l, isJsWs c = true → c = ' '

theorem collapseWs_head? (l : List Char) :
    ∀ c, (collapseWs (c :: l)).head? = some (if isJsWs c then ' ' else c) := by
  induction l with
  | nil =>
    intro c
    by_cases hc : isJsWs c = true <;> simp [collapseWs, hc]
  | cons b rest ih =>
    intro c
    by_cases hc : isJsWs c = true
    · by_cases hb : isJsWs b = true
      · simpa [collapseWs, hc, hb] using ih b
      · simp [collapseWs, hc, hb]
    · simp [collapseWs, hc]

theorem collapseWs_props (l : List Char) :
    NoWsRun (collapseWs l) ∧ AllWsSpace (collapseWs l) := by
  induction l with
  | nil => exact ⟨List.chain'_nil, by intro c hc; simp [collapseWs] at hc⟩
  | cons a rest ih =>
    cases rest with
    | nil =>
      by_cases ha : isJsWs a = true
      · refine ⟨by simp [collapseWs, ha, NoWsRun], ?_⟩
        intro c hc _
        simp [collapseWs, ha] at hc
        exact hc
      · refine ⟨by simp [collapseWs, ha, NoWsRun], ?_⟩
        intro c hc hw
        simp [collapseWs, ha] at hc
        subst hc
        simp only [Bool.not_eq_true] at ha
        rw [ha] at hw
        cases hw
    | cons b rest2 =>
      by_cases ha : isJsWs a = true
      · by_cases hb : isJsWs b = true
        · simpa [collapseWs, ha, hb] using ih
        · refine ⟨?_, ?_⟩
          · rw [show collapseWs (a :: b :: rest2) = ' ' :: collapseWs (b :: rest2) by
              simp [collapseWs, ha, hb]]
            rw [NoWsRun, List.chain'_cons']
            refine ⟨?_, ih.1⟩
            intro y hy
            rw [collapseWs_head? rest2 b] at hy
            simp [hb] at hy
            subst hy
            exact Or.inr (by simpa using hb)
          · intro c hc hw
            rw [show collapseWs (a :: b :: rest2) = ' ' :: collapseWs (b :: rest2) by
              simp [collapseWs, ha, hb]] at hc
            rcases List.mem_cons.mp hc with h | h
            · exact h
            · exact ih.2 c h hw
      · refine ⟨?_, ?_⟩
        · rw [show collapseWs (a :: b :: rest2) = a :: collapseWs (b :: rest2) by
            simp [collapseWs, ha]]
          rw [NoWsRun, List.chain'_cons']
          refine ⟨?_, ih.1⟩
          intro y _
          exact Or.inl (by simpa using ha)
        · intro c hc hw
          rw [show collapseWs (a :: b :: rest2) = a :: collapseWs (b :: rest2) by
            simp [collapseWs, ha]] at hc
          rcases List.mem_cons.mp hc with h | h
          · subst h
            simp only [Bool.not_eq_true] at ha
            rw [ha] at hw
            cases hw
          · exact ih.2 c h hw

theorem collapseWs_eq_self (l : List Char) :
    NoWsRun l → AllWsSpace l → collapseWs l = l := by
  induction l with
  | nil => intro _ _; rfl
  | cons a rest ih =>
    intro h1 h2
    cases rest with
    | nil =>
      by_cases ha : isJsWs a = true
      · have haa : a = ' ' := h2 a (by simp) ha
        subst haa
        simp [collapseWs]
      · simp [collapseWs, ha]
    | cons b rest2 =>
      have hR := (List.chain'_cons.mp h1).1
      have h1' : NoWsRun (b :: rest2) := (List.chain'_cons.mp h1).2
      have h2' : AllWsSpace (b :: rest2) := fun c hc hw => h2 c (List.mem_cons_of_mem _ hc) hw
      by_cases ha : isJsWs a = true
      · have hb : isJsWs b = false := by
          rcases hR with h | h
          · rw [ha] at h; cases h
          · exact h
        have haa : a = ' ' := h2 a (by simp) ha
        rw [show collapseWs (a :: b :: rest2) = ' ' :: collapseWs (b :: rest2) by
          simp [collapseWs, ha, hb], ih h1' h2', haa]
      · rw [show collapseWs (a :: b :: rest2) = a :: collapseWs (b :: rest2) by
          simp [collapseWs, ha], ih h1' h2']

theorem dropWhile_eq_self_of_head (p : Char → Bool) (l : List Char)
    (h : ∀ c, l.head? = some c → p c = false) : l.dropWhile p = l := by
  cases l with
  | nil => rfl
  | cons a rest =>
    rw [List.dropWhile_cons, if_neg]
    simp [h a rfl]

theorem trimWs_eq_self (s : List Char)
    (hhead : ∀ c, s.head? = some c → isJsWs c = false)
    (hlast : ∀ c, s.getLast? = some c → isJsWs c = false) :
    trimWs s = s := by
  unfold trimWs
  rw [dropWhile_eq_self_of_head isJsWs s.reverse
    (fun c hc => hlast c (by rwa [List.head?_reverse] at hc))]
  rw [List.reverse_reverse]
  exact dropWhile_eq_self_of_head isJsWs s hhead

theorem trimWs_sublist (l : List Char) : (trimWs l).Sublist l := by
  unfold trimWs
  have h2 := (List.dropWhile_sublist (l := l.reverse) isJsWs).reverse
  rw [List.reverse_reverse] at h2
  exact (List.dropWhile_sublist isJsWs).trans h2

theorem NoWsRun_trimWs (l : List Char) (h : NoWsRun l) : NoWsRun (trimWs l) := by
  unfold NoWsRun at *
  have hsymm : ∀ {m : List Char},
      List.Chain' (fun a b => isJsWs a = false ∨ isJsWs b = false) m →
      List.Chain' (fun a b => isJsWs a = false ∨ isJsWs b = false) m.reverse := by
    intro m hm
    exact List.chain'_reverse.mpr (hm.imp (fun a b hab => Or.symm hab))
  have hsuf : ∀ {m : List Char},
      List.Chain' (fun a b => isJsWs a = false ∨ isJsWs b = false) m →
      List.Chain' (fun a b => isJsWs a = false ∨ isJsWs b = false) (m.dropWhile isJsWs) := by
    intro m hm
    exact hm.suffix ⟨m.takeWhile isJsWs, List.takeWhile_append_dropWhile _ _⟩
  exact hsuf (hsymm (hsuf (hsymm h)))

theorem NoWsRun_take (n : Nat) (l : List Char) (h : NoWsRun l) : NoWsRun (l.take n) := by
  rw [← List.take_append_drop n l] at h
  exact (List.chain'_append.mp h).1

theorem sanitize_fix (s : List Char)
    (himg : ∃ v, sanitizeTagValue v = some s)
    (hlast : ∀ c, s.getLast? = some c → isJsWs c = false) :
    sanitizeTagValue (.vstr s) = some s := by
  obtain ⟨v, hv⟩ := himg
  cases v with
  | vnum n => exact Option.noConfusion hv
  | vbool b => exact Option.noConfusion hv
  | vnull => exact Option.noConfusion hv
  | varr a => exact Option.noConfusion hv
  | vstr u =>
    simp only [sanitizeTagValue] at hv
    by_cases ht : trimWs (collapseWs u) = []
    · rw [if_pos ht] at hv; cases hv
    · rw [if_neg ht] at hv
      injection hv with hv
      have hcol := collapseWs_props u
      have hnr : NoWsRun (trimWs (collapseWs u)) := NoWsRun_trimWs _ hcol.1
      have hsp : AllWsSpace (trimWs (collapseWs u)) := fun c hc hw =>
        hcol.2 c (List.Sublist.mem hc (trimWs_sublist _)) hw
      have hhead_t : ∀ c, (trimWs (collapseWs u)).head? = some c → isJsWs c = false := by
        intro c hc
        have hmatch := List.head?_dropWhile_not isJsWs
          ((List.dropWhile isJsWs (collapseWs u).reverse).reverse)
        unfold trimWs at hc
        rw [hc] at hmatch
        exact hmatch
      obtain ⟨a, t', hteq⟩ : ∃ a t', trimWs (collapseWs u) = a :: t' := by
        cases htt : trimWs (collapseWs u) with
        | nil => exact absurd htt ht
        | cons a t' => exact ⟨a, t', rfl⟩
      rw [hteq] at hv
      subst hv
      have hs_cons : (a :: t').take MAX_TAG_LENGTH = a :: t'.take 47 := rfl
      have hnr_s : NoWsRun ((a :: t').take MAX_TAG_LENGTH) := by
        refine NoWsRun_take _ _ ?_
        rw [← hteq]; exact hnr
      have hsp_s : AllWsSpace ((a :: t').take MAX_TAG_LENGTH) := by
        intro c hc hw
        refine hsp c ?_ hw
        rw [hteq]
        exact List.Sublist.mem hc (List.take_sublist _ _)
      have hhead_s : ∀ c, ((a :: t').take MAX_TAG_LENGTH).head? = some c → isJsWs c = false := by
        intro c hc
        rw [hs_cons] at hc
        simp at hc
        subst hc
        exact hhead_t a (by rw [hteq]; rfl)
      simp only [sanitizeTagValue]
      rw [collapseWs_eq_self _ hnr_s hsp_s, trimWs_eq_self _ hhead_s hlast,
        if_neg (by simp [hs_cons])]
      simp [List.take_take]

/-- Every tag emitted by the `normalizeTagsInput` loop is a `sanitizeTagValue`
output. -/
theorem normLoop_mem (items : List JVal) :
    ∀ seen len t, t ∈ normLoop items seen len → ∃ v, sanitizeTagValue v = some t := by
  induction items with
  | nil =>
    intro seen len t ht
    simp [normLoop] at ht
  | cons item rest ih =>
    intro seen len t ht
    simp only [normLoop] at ht
    cases hs : sanitizeTagValue item with
    | none =>
      rw [hs] at ht
      exact ih seen len t ht
    | some s' =>
      rw [hs] at ht
      dsimp only at ht
      by_cases hm : lowerKey s' ∈ seen
      · rw [if_pos hm] at ht
        exact ih seen len t ht
      · rw [if_neg hm] at ht
        by_cases hb : MAX_TAGS_PER_DOCUMENT ≤ len + 1
        · rw [if_pos hb] at ht
          simp at ht
          subst ht
          exact ⟨item, hs⟩
        · rw [if_neg hb] at ht
          rcases List.mem_cons.mp ht with h | h
          · subst h; exact ⟨item, hs⟩
          · exact ih _ _ t h

/-- The emitted tags have pairwise distinct lowercase keys, none of which was
already in `seen`. -/
theorem normLoop_keys (items : List JVal) :
    ∀ seen len,
      (normLoop items seen len).Pairwise (fun a b => lowerKey a ≠ lowerKey b) ∧
      ∀ t ∈ normLoop items seen len, lowerKey t ∉ seen := by
  induction items with
  | nil =>
    intro seen len
    refine ⟨by simp [normLoop], ?_⟩
    intro t ht
    simp [normLoop] at ht
  | cons item rest ih =>
    intro seen len
    simp only [normLoop]
    cases hs : sanitizeTagValue item with
    | none => exact ih seen len
    | some s' =>
      dsimp only
      by_cases hm : lowerKey s' ∈ seen
      · rw [if_pos hm]
        exact ih seen len
      · rw [if_neg hm]
        by_cases hb : MAX_TAGS_PER_DOCUMENT ≤ len + 1
        · rw [if_pos hb]
          refine ⟨by simp, ?_⟩
          intro t ht
          simp at ht
          subst ht
          exact hm
        · rw [if_neg hb]
          obtain ⟨hp, hd⟩ := ih (lowerKey s' :: seen) (len + 1)
          constructor
          · rw [List.pairwise_cons]
            refine ⟨?_, hp⟩
            intro b hb'
            have hmem := hd b hb'
            simp only [List.mem_cons] at hmem
            push_neg at hmem
            exact fun hEq => hmem.1 hEq.symm
          · intro t ht
            rcases List.mem_cons.mp ht with h | h
            · subst h; exact hm
            · have hmem := hd t h
              simp only [List.mem_cons] at hmem
              push_neg at hmem
              exact hmem.2

/-- The loop never emits more than `MAX_TAGS_PER_DOCUMENT` tags in total. -/
theorem normLoop_len (items : List JVal) :
    ∀ seen len, len + 1 ≤ MAX_TAGS_PER_DOCUMENT →
      len + (normLoop items seen len).length ≤ MAX_TAGS_PER_DOCUMENT := by
  induction items with
  | nil =>
    intro seen len h
    simp [normLoop]
    omega
  | cons item rest ih =>
    intro seen len h
    simp only [normLoop]
    cases hs : sanitizeTagValue item with
    | none => exact ih seen len h
    | some s' =>
      dsimp only
      by_cases hm : lowerKey s' ∈ seen
      · rw [if_pos hm]
        exact ih seen len h
      · rw [if_neg hm]
        by_cases hb : MAX_TAGS_PER_DOCUMENT ≤ len + 1
        · rw [if_pos hb]
          simp only [List.length_singleton]
          omega
        · rw [if_neg hb]
          have hrec := ih (lowerKey s' :: seen) (len + 1) (by omega)
          simp only [List.length_cons]
          omega

/-- Feeding back a list of self-sanitizing tags with pairwise distinct keys
(at most the cap, keys disjoint from `seen`) reproduces it verbatim. -/
theorem normLoop_id (l : List (List Char)) :
    ∀ (seen : List (List Char)) (len : Nat),
      (∀ t ∈ l, sanitizeTagValue (.vstr t) = some t) →
      l.Pairwise (fun a b => lowerKey a ≠ lowerKey b) →
      (∀ t ∈ l, lowerKey t ∉ seen) →
      len + l.length ≤ MAX_TAGS_PER_DOCUMENT →
      normLoop (l.map .vstr) seen len = l := by
  induction l with
  | nil => intro seen len _ _ _ _; rfl
  | cons t rest ih =>
    intro seen len hsan hpair hseen hlen
    simp only [List.map_cons, normLoop]
    rw [hsan t (by simp)]
    dsimp only
    rw [if_neg (hseen t (by simp))]
    by_cases hb : MAX_TAGS_PER_DOCUMENT ≤ len + 1
    · have hrest : rest = [] := by
        cases rest with
        | nil => rfl
        | cons x xs =>
          exfalso
          simp only [List.length_cons] at hlen
          omega
      subst hrest
      rw [if_pos hb]
    · rw [if_neg hb]
      have hdisj : ∀ r ∈ rest, lowerKey r ∉ lowerKey t :: seen := by
        intro r hr
        simp only [List.mem_cons]
        push_neg
        refine ⟨?_, hseen r (List.mem_cons_of_mem _ hr)⟩
        intro hEq
        exact (List.pairwise_cons.mp hpair).1 r hr hEq.symm
      rw [ih (lowerKey t :: seen) (len + 1)
        (fun r hr => hsan r (List.mem_cons_of_mem _ hr))
        (List.pairwise_cons.mp hpair).2 hdisj
        (by simp only [List.length_cons] at hlen; omega)]

/-- C3 counterexample: the 49-character tag of 47 `a`s, a space and a `b`
sanitizes to 47 `a`s plus a trailing space (truncation at 48 cuts right
after the space), and normalizing that output again trims the space off —
so normalization applied to its own output changes the list. -/
theorem tagNormalizationNotIdempotent :
    normalizeTagsInput (.varr [.vstr (List.replicate 47 'a' ++ [' ', 'b'])]) =
      some [List.replicate 47 'a' ++ [' ']] ∧
    normalizeTagsInput (.varr [.vstr (List.replicate 47 'a' ++ [' '])]) =
      some [List.replicate 47 'a'] ∧
    ([List.replicate 47 'a' ++ [' ']] : List (List Char)) ≠ [List.replicate 47 'a'] := by
  refine ⟨by decide, by decide, by decide⟩

/-- C3 (amended): tag normalization is idempotent on every input whose
normalized tags do not end in whitespace — the only exception the
48-character truncation can create; in particular
`["Foo", " foo ", "Bar"]` normalizes to `["Foo", "Bar"]` (and that list is a
fixed point). -/
theorem tagNormalizationIdempotentNoTrailingWs :
    (∀ (v : JVal) (l : List (List Char)),
      normalizeTagsInput v = some l →
      (∀ t ∈ l, ∀ c, t.getLast? = some c → isJsWs c = false) →
      normalizeTagsInput (.varr (l.map .vstr)) = some l) ∧
    normalizeTagsInput (.varr [.vstr "Foo".data, .vstr " foo ".data, .vstr "Bar".data]) =
      some ["Foo".data, "Bar".data] := by
  constructor
  · intro v l hv hlast
    cases v with
    | vstr s => exact Option.noConfusion hv
    | vnum n => exact Option.noConfusion hv
    | vbool b => exact Option.noConfusion hv
    | vnull => exact Option.noConfusion hv
    | varr items =>
      simp only [normalizeTagsInput] at hv ⊢
      injection hv with hv
      subst hv
      congr 1
      refine normLoop_id _ [] 0 ?_ ?_ ?_ ?_
      · intro t ht
        exact sanitize_fix t (normLoop_mem items [] 0 t ht) (hlast t ht)
      · exact (normLoop_keys items [] 0).1
      · intro t _
        simp
      · have hlen := normLoop_len items [] 0 (by decide)
        simpa using hlen
  · decide

/-- Closed witness for `tagNormalizationIdempotentNoTrailingWs`. -/
theorem tagNormalizationIdempotentNoTrailingWs_witness :
    normalizeTagsInput (.varr (["Foo".data, "Bar".data].map .vstr)) =
      some ["Foo".data, "Bar".data] :=
  tagNormalizationIdempotentNoTrailingWs.1
    (.varr [.vstr "Foo".data, .vstr " foo ".data, .vstr "Bar".data])
    ["Foo".data, "Bar".data]
    tagNormalizationIdempotentNoTrailingWs.2
    (by decide)

end PTW
